import Mathlib

/-!
Shallow embedding of the transaction-application ledger engine
(`src/model.rs`, `src/error.rs`, dispatch loop of `src/main.rs`).

Amounts (`f32` in the source) are modelled as exact rationals; client and
transaction identifiers (`u16` / `u32`) are modelled as naturals, since the
code only ever compares them for equality.  The two `HashMap`s of `State`
are modelled as association lists with the usual finite-map operations.
Each handler `fn handle(self, state: &mut State) -> Result<(), TransactionError>`
becomes a pure function `Transaction → State → Option TransactionError × State`,
returning the (possibly partially mutated) state together with the optional
error, which mirrors in-place mutation plus a `Result<(), E>` return.
-/

namespace TxnApp

/-- Transaction kinds, from `TxType` in `src/model.rs`. -/
inductive TxType where
  | Deposit
  | Withdrawal
  | Dispute
  | Resolve
  | Chargeback
deriving DecidableEq

/-- Dispute lifecycle status of a stored transaction, from `TxStatus`;
`Valid` is the `#[default]` variant. -/
inductive TxStatus where
  | Valid
  | Disputed
  | Chargeback
deriving DecidableEq

/-- `type Amount = f32`, modelled as an exact rational. -/
abbrev Amount := ℚ

/-- `type ClientId = u16`. -/
abbrev ClientId := ℕ

/-- `type TxId = u32`. -/
abbrev TxId := ℕ

/-- An incoming record, from `struct Transaction` in `src/model.rs`. -/
structure Transaction where
  tx_type : TxType
  client_id : ClientId
  tx_id : TxId
  amount : Option Amount
deriving DecidableEq

/-- `struct ClientAccount` from `src/model.rs`. -/
structure ClientAccount where
  client_id : ClientId
  available : Amount
  held : Amount
  total : Amount
  locked : Bool
deriving DecidableEq

/-- The account created by `Deposit::handle` via
`or_insert_with(|| ClientAccount { client_id, ..Default::default() })`. -/
def ClientAccount.init (c : ClientId) : ClientAccount :=
  { client_id := c, available := 0, held := 0, total := 0, locked := false }

/-- A stored ledger transaction: each of the five handler structs is
`{ inner: Transaction, status: TxStatus }`; only deposits and withdrawals
are ever inserted into the table. -/
structure LedgerTx where
  inner : Transaction
  status : TxStatus
deriving DecidableEq

/-- `enum TransactionError` from `src/error.rs`, with the same payloads. -/
inductive TransactionError where
  | MustBePositive (tx_type : TxType) (id : TxId) (amount : Amount)
  | BalanceInsufficient (available : Amount) (tx_type : TxType) (id : TxId) (amount : Amount)
  | AccountLocked (id : ClientId)
  | NotFound (tx_type : TxType) (id : TxId)
  | AccountNotFound (id : ClientId)
  | ClientIdMismatch (expected : ClientId) (actual : ClientId)
  | DuplicateTransaction (id : TxId)
  | MissingAmount (tx_type : TxType) (id : TxId)
  | IncorrectState (tx_type : TxType) (state : TxStatus) (id : TxId)
deriving DecidableEq

/-- Finite-map lookup on an association list (models `HashMap::get`). -/
def alookup (k : ℕ) : List (ℕ × α) → Option α
  | [] => none
  | (k', v) :: rest => if k = k' then some v else alookup k rest

/-- Finite-map insert-or-replace (models `HashMap::insert`). -/
def ainsert (k : ℕ) (v : α) : List (ℕ × α) → List (ℕ × α)
  | [] => [(k, v)]
  | (k', v') :: rest => if k = k' then (k, v) :: rest else (k', v') :: ainsert k v rest

/-- Apply `f` to the value stored at `k`, if any (models mutation through
`HashMap::get_mut` / `Entry::or_insert`). -/
def aupdate (k : ℕ) (f : α → α) : List (ℕ × α) → List (ℕ × α)
  | [] => []
  | (k', v) :: rest => if k = k' then (k', f v) :: rest else (k', v) :: aupdate k f rest

/-- `struct State` from `src/model.rs`: the two coupled tables. -/
structure State where
  accounts : List (ClientId × ClientAccount)
  transactions : List (TxId × LedgerTx)
deriving DecidableEq

/-- `State::default()`: both tables empty. -/
def State.empty : State := ⟨[], []⟩

/-- `TransactionExt::check_positive`: `if amount < 0.0 { Err(MustBePositive) }`. -/
def check_positive (t : TxType) (id : TxId) (amount : Amount) : Option TransactionError :=
  if amount < 0 then some (.MustBePositive t id amount) else none

/-- `TransactionExt::check_sufficient_balance`:
`if available < amount { Err(BalanceInsufficient) }`. -/
def check_sufficient_balance (t : TxType) (id : TxId) (available amount : Amount) :
    Option TransactionError :=
  if available < amount then some (.BalanceInsufficient available t id amount) else none

/-- `TransactionExt::check_client_id_mismatch`: `actual` is the record's own
client id (`self.client_id()`), `expected` the referenced transaction's. -/
def check_client_id_mismatch (actual expected : ClientId) : Option TransactionError :=
  if expected ≠ actual then some (.ClientIdMismatch expected actual) else none

/-- `TransactionExt::check_duplicate`: the transaction id must not already
be a key of the transaction table. -/
def check_duplicate (id : TxId) (transactions : List (TxId × LedgerTx)) :
    Option TransactionError :=
  if (alookup id transactions).isSome then some (.DuplicateTransaction id) else none

/-- `TransactionExt::check_locked`: reject if the account is locked;
the reported id is the record's own client id. -/
def check_locked (selfClient : ClientId) (account : ClientAccount) : Option TransactionError :=
  if account.locked then some (.AccountLocked selfClient) else none

/-- `state.transactions.get_mut(&id).filter(|tx| tx.tx_type() == TxType::Deposit)`:
the shared lookup of dispute/resolve/chargeback. -/
def lookupDeposit (s : State) (t : TxId) : Option LedgerTx :=
  match alookup t s.transactions with
  | none => none
  | some tx => if tx.inner.tx_type = TxType.Deposit then some tx else none

/-- `Deposit::handle`'s `state.accounts.entry(client).or_insert_with(..)`:
returns the state (with the account created if it was absent) and the account. -/
def getOrCreate (s : State) (c : ClientId) : State × ClientAccount :=
  match alookup c s.accounts with
  | some a => (s, a)
  | none =>
    ({ s with accounts := ainsert c (ClientAccount.init c) s.accounts }, ClientAccount.init c)

/-- `tx.set_status(st)` on the entry stored under `t` (via `get_mut`). -/
def setTxStatus (s : State) (t : TxId) (st : TxStatus) : State :=
  { s with transactions := aupdate t (fun t0 => { t0 with status := st }) s.transactions }

/-- In-place mutation of the account stored under `c`. -/
def updAcct (s : State) (c : ClientId) (f : ClientAccount → ClientAccount) : State :=
  { s with accounts := aupdate c f s.accounts }

/-- `state.transactions.insert(t, v)`. -/
def insTx (s : State) (t : TxId) (v : LedgerTx) : State :=
  { s with transactions := ainsert t v s.transactions }

/-- `Deposit::handle`'s account mutation: `available += amount; total += amount`. -/
def depositAdd (amt : Amount) (a : ClientAccount) : ClientAccount :=
  { a with available := a.available + amt, total := a.total + amt }

/-- `Withdrawal::handle`'s account mutation: `available -= amount; total -= amount`. -/
def withdrawSub (amt : Amount) (a : ClientAccount) : ClientAccount :=
  { a with available := a.available - amt, total := a.total - amt }

/-- `Dispute::handle`'s account mutation: `available -= amount; held += amount`. -/
def disputeMove (amt : Amount) (a : ClientAccount) : ClientAccount :=
  { a with available := a.available - amt, held := a.held + amt }

/-- `Resolve::handle`'s account mutation: `held -= amount; available += amount`. -/
def resolveMove (amt : Amount) (a : ClientAccount) : ClientAccount :=
  { a with held := a.held - amt, available := a.available + amt }

/-- `Chargeback::handle`'s account mutation:
`held -= amount; total -= amount; locked = true`. -/
def chargebackTake (amt : Amount) (a : ClientAccount) : ClientAccount :=
  { a with held := a.held - amt, total := a.total - amt, locked := true }

/-- `Deposit::handle` from `src/model.rs`. -/
def Deposit.handle (r : Transaction) (s : State) : Option TransactionError × State :=
  match check_duplicate r.tx_id s.transactions with
  | some e => (some e, s)
  | none =>
  match r.amount with
  | none => (some (.MissingAmount r.tx_type r.tx_id), s)
  | some amount =>
  match check_positive r.tx_type r.tx_id amount with
  | some e => (some e, s)
  | none =>
  match check_locked r.client_id (getOrCreate s r.client_id).2 with
  | some e => (some e, (getOrCreate s r.client_id).1)
  | none =>
    (none, insTx (updAcct (getOrCreate s r.client_id).1 r.client_id (depositAdd amount))
      r.tx_id ⟨r, TxStatus.Valid⟩)

/-- `Withdrawal::handle` from `src/model.rs`. -/
def Withdrawal.handle (r : Transaction) (s : State) : Option TransactionError × State :=
  match check_duplicate r.tx_id s.transactions with
  | some e => (some e, s)
  | none =>
  match r.amount with
  | none => (some (.MissingAmount r.tx_type r.tx_id), s)
  | some amount =>
  match check_positive r.tx_type r.tx_id amount with
  | some e => (some e, s)
  | none =>
  match alookup r.client_id s.accounts with
  | none => (some (.AccountNotFound r.client_id), s)
  | some account =>
  match check_locked r.client_id account with
  | some e => (some e, s)
  | none =>
  match check_sufficient_balance r.tx_type r.tx_id account.available amount with
  | some e => (some e, s)
  | none =>
    (none, insTx (updAcct s r.client_id (withdrawSub amount)) r.tx_id ⟨r, TxStatus.Valid⟩)

/-- `Dispute::handle` from `src/model.rs`. -/
def Dispute.handle (r : Transaction) (s : State) : Option TransactionError × State :=
  match lookupDeposit s r.tx_id with
  | none => (some (.NotFound r.tx_type r.tx_id), s)
  | some tx =>
  if TxStatus.Valid ≠ tx.status then
    (some (.IncorrectState r.tx_type tx.status tx.inner.tx_id), s)
  else
  match check_client_id_mismatch r.client_id tx.inner.client_id with
  | some e => (some e, s)
  | none =>
  match alookup tx.inner.client_id s.accounts with
  | none => (some (.AccountNotFound tx.inner.client_id), s)
  | some account =>
  match check_locked r.client_id account with
  | some e => (some e, s)
  | none =>
  match tx.inner.amount with
  | none => (some (.MissingAmount r.tx_type r.tx_id), s)
  | some amount =>
    (none, updAcct (setTxStatus s r.tx_id TxStatus.Disputed) tx.inner.client_id
        (disputeMove amount))

/-- `Resolve::handle` from `src/model.rs`; note that the status is reset to
`Valid` before the held-balance check. -/
def Resolve.handle (r : Transaction) (s : State) : Option TransactionError × State :=
  match lookupDeposit s r.tx_id with
  | none => (some (.NotFound r.tx_type r.tx_id), s)
  | some tx =>
  if TxStatus.Disputed ≠ tx.status then
    (some (.IncorrectState r.tx_type tx.status tx.inner.tx_id), s)
  else
  match check_client_id_mismatch r.client_id tx.inner.client_id with
  | some e => (some e, s)
  | none =>
  match alookup tx.inner.client_id s.accounts with
  | none => (some (.AccountNotFound tx.inner.client_id), s)
  | some account =>
  match check_locked r.client_id account with
  | some e => (some e, s)
  | none =>
  match tx.inner.amount with
  | none => (some (.MissingAmount r.tx_type r.tx_id), s)
  | some amount =>
    match check_sufficient_balance r.tx_type r.tx_id account.held amount with
    | some e => (some e, setTxStatus s r.tx_id TxStatus.Valid)
    | none =>
      (none, updAcct (setTxStatus s r.tx_id TxStatus.Valid) tx.inner.client_id
          (resolveMove amount))

/-- `Chargeback::handle` from `src/model.rs`; the status is set to the
terminal `Chargeback` before the negative-available and held-balance checks. -/
def Chargeback.handle (r : Transaction) (s : State) : Option TransactionError × State :=
  match lookupDeposit s r.tx_id with
  | none => (some (.NotFound r.tx_type r.tx_id), s)
  | some tx =>
  if TxStatus.Disputed ≠ tx.status then
    (some (.IncorrectState r.tx_type tx.status tx.inner.tx_id), s)
  else
  match check_client_id_mismatch r.client_id tx.inner.client_id with
  | some e => (some e, s)
  | none =>
  match alookup tx.inner.client_id s.accounts with
  | none => (some (.AccountNotFound tx.inner.client_id), s)
  | some account =>
  match check_locked r.client_id account with
  | some e => (some e, s)
  | none =>
  match tx.inner.amount with
  | none => (some (.MissingAmount r.tx_type r.tx_id), s)
  | some amount =>
    if account.available < 0 then
      (some (.BalanceInsufficient (account.available + amount) r.tx_type r.tx_id amount),
        setTxStatus s r.tx_id TxStatus.Chargeback)
    else
    match check_sufficient_balance r.tx_type r.tx_id account.held amount with
    | some e => (some e, setTxStatus s r.tx_id TxStatus.Chargeback)
    | none =>
      (none, updAcct (setTxStatus s r.tx_id TxStatus.Chargeback) tx.inner.client_id
          (chargebackTake amount))

/-- The per-record dispatch of `run` in `src/main.rs`. -/
def step (r : Transaction) (s : State) : Option TransactionError × State :=
  match r.tx_type with
  | TxType.Deposit => Deposit.handle r s
  | TxType.Withdrawal => Withdrawal.handle r s
  | TxType.Resolve => Resolve.handle r s
  | TxType.Chargeback => Chargeback.handle r s
  | TxType.Dispute => Dispute.handle r s

/-- The processing loop of `run`: transaction errors are skipped and
processing continues with the next record. -/
def processAll (recs : List Transaction) (s : State) : State :=
  recs.foldl (fun s r => (step r s).2) s

/-- `true` iff every record in the list is accepted when processed in order. -/
def allAccepted : List Transaction → State → Bool
  | [], _ => true
  | r :: rest, s => (step r s).1.isNone && allAccepted rest (step r s).2

/-- The account table says client `c` is locked. -/
def lockedIn (s : State) (c : ClientId) : Bool :=
  match alookup c s.accounts with
  | some a => a.locked
  | none => false

/-- Final `total` reported for client `c` (0 if no account exists). -/
def totalOf (s : State) (c : ClientId) : Amount :=
  match alookup c s.accounts with
  | some a => a.total
  | none => 0

/-- Sum of the deposit amounts of client `c`'s deposit records in a list. -/
def depositSum (recs : List Transaction) (c : ClientId) : Amount :=
  recs.foldr
    (fun r acc =>
      if r.tx_type = TxType.Deposit ∧ r.client_id = c then (r.amount.getD 0) + acc else acc) 0

/-- Sum of the withdrawal amounts of client `c`'s withdrawal records in a list. -/
def withdrawalSum (recs : List Transaction) (c : ClientId) : Amount :=
  recs.foldr
    (fun r acc =>
      if r.tx_type = TxType.Withdrawal ∧ r.client_id = c then (r.amount.getD 0) + acc else acc) 0

/-- `total == available + held` for every stored account. -/
def stateInv (s : State) : Prop :=
  ∀ c a, alookup c s.accounts = some a → a.total = a.available + a.held

/-- The deposit `deposit(client=1, tx=1, amt=100)` of the spec scenario. -/
def recDep1 : Transaction := ⟨TxType.Deposit, 1, 1, some 100⟩

/-- The withdrawal `withdrawal(client=1, tx=2, amt=50)` of the spec scenario. -/
def recWd2 : Transaction := ⟨TxType.Withdrawal, 1, 2, some 50⟩

/-- The dispute `dispute(tx=1)` of the spec scenario. -/
def recDsp1 : Transaction := ⟨TxType.Dispute, 1, 1, none⟩

/-- The chargeback `chargeback(tx=1)` of the spec scenario. -/
def recCb1 : Transaction := ⟨TxType.Chargeback, 1, 1, none⟩

/-- The resolve `resolve(tx=1)` of the spec scenario. -/
def recRes1 : Transaction := ⟨TxType.Resolve, 1, 1, none⟩

/-- State after `deposit(1,1,100); withdrawal(1,2,50); dispute(1)` on the
empty state: `available=-50, held=100, total=50`, deposit 1 `Disputed`. -/
def stateAfterDispute : State :=
  ⟨[(1, ⟨1, -50, 100, 50, false⟩)],
   [(1, ⟨recDep1, TxStatus.Disputed⟩), (2, ⟨recWd2, TxStatus.Valid⟩)]⟩

/-- State produced by the failed `chargeback(tx=1)` on `stateAfterDispute`:
balances untouched, but deposit 1 now has terminal status `Chargeback`. -/
def stateAfterFailedCb : State :=
  ⟨[(1, ⟨1, -50, 100, 50, false⟩)],
   [(1, ⟨recDep1, TxStatus.Chargeback⟩), (2, ⟨recWd2, TxStatus.Valid⟩)]⟩

/-- State produced by `resolve(tx=1)` applied to `stateAfterDispute`. -/
def stateResolved : State :=
  ⟨[(1, ⟨1, 50, 0, 50, false⟩)],
   [(1, ⟨recDep1, TxStatus.Valid⟩), (2, ⟨recWd2, TxStatus.Valid⟩)]⟩

/-- A one-account state whose only client is locked. -/
def sLocked : State := ⟨[(1, ⟨1, 0, 0, 0, true⟩)], []⟩

/-- A deposit targeting the locked client of `sLocked`. -/
def recDepLocked : Transaction := ⟨TxType.Deposit, 1, 3, some 5⟩

/-- The dispute record `dispute(client=1, tx=2)` referencing withdrawal 2. -/
def recDspWd : Transaction := ⟨TxType.Dispute, 1, 2, none⟩

/-- A second deposit reusing transaction id 1 (different client and amount). -/
def recDupDep : Transaction := ⟨TxType.Deposit, 9, 1, some 7⟩

/-- A state whose only deposit is `Disputed` while the account holds less in
`held` than the disputed amount. -/
def sHeldLow : State :=
  ⟨[(1, ⟨1, 5, 3, 8, false⟩)],
   [(1, ⟨⟨TxType.Deposit, 1, 1, some 10⟩, TxStatus.Disputed⟩)]⟩

/-- The resolve on `sHeldLow`. -/
def recResLow : Transaction := ⟨TxType.Resolve, 1, 1, none⟩

theorem alookup_ainsert_self (k : ℕ) (v : α) (l : List (ℕ × α)) :
    alookup k (ainsert k v l) = some v := by
  induction l with
  | nil => simp [ainsert, alookup]
  | cons p rest ih =>
    obtain ⟨k', v'⟩ := p
    by_cases h : k = k'
    · simp [ainsert, alookup, h]
    · simp [ainsert, alookup, h, ih]

theorem alookup_ainsert_ne (h : j ≠ k) (v : α) (l : List (ℕ × α)) :
    alookup j (ainsert k v l) = alookup j l := by
  induction l with
  | nil => simp [ainsert, alookup, h]
  | cons p rest ih =>
    obtain ⟨k', v'⟩ := p
    by_cases hk : k = k'
    · subst hk
      simp [ainsert, alookup, h]
    · by_cases hj : j = k'
      · simp [ainsert, alookup, hk, hj]
      · simp [ainsert, alookup, hk, hj, ih]

theorem alookup_aupdate_self (k : ℕ) (f : α → α) (l : List (ℕ × α)) :
    alookup k (aupdate k f l) = (alookup k l).map f := by
  induction l with
  | nil => simp [aupdate, alookup]
  | cons p rest ih =>
    obtain ⟨k', v'⟩ := p
    by_cases h : k = k'
    · simp [aupdate, alookup, h]
    · simp [aupdate, alookup, h, ih]

theorem alookup_aupdate_ne (h : j ≠ k) (f : α → α) (l : List (ℕ × α)) :
    alookup j (aupdate k f l) = alookup j l := by
  induction l with
  | nil => simp [aupdate, alookup]
  | cons p rest ih =>
    obtain ⟨k', v'⟩ := p
    by_cases hk : k = k'
    · subst hk
      simp [aupdate, alookup, h]
    · by_cases hj : j = k'
      · simp [aupdate, alookup, hk, hj]
      · simp [aupdate, alookup, hk, hj, ih]

theorem setTxStatus_accounts (s : State) (t : TxId) (st : TxStatus) :
    (setTxStatus s t st).accounts = s.accounts := rfl

theorem updAcct_transactions (s : State) (c : ClientId) (f : ClientAccount → ClientAccount) :
    (updAcct s c f).transactions = s.transactions := rfl

theorem insTx_accounts (s : State) (t : TxId) (v : LedgerTx) :
    (insTx s t v).accounts = s.accounts := rfl

/-- Outcome characterization of `Deposit::handle`: either it rejects and
returns the state untouched (the `or_insert_with` account creation cannot be
followed by a rejection, since a freshly created account is unlocked), or all
checks pass and it credits the account and inserts the ledger entry. -/
theorem deposit_shape (r : Transaction) (s : State) :
    (∃ e, Deposit.handle r s = (some e, s)) ∨
    (∃ amt, r.amount = some amt ∧ 0 ≤ amt ∧ alookup r.tx_id s.transactions = none ∧
      ((getOrCreate s r.client_id).2).locked = false ∧
      Deposit.handle r s = (none, insTx (updAcct (getOrCreate s r.client_id).1 r.client_id
        (depositAdd amt)) r.tx_id ⟨r, TxStatus.Valid⟩)) := by
  unfold Deposit.handle
  split
  next e heq => exact Or.inl ⟨e, rfl⟩
  next hdup =>
  split
  next => exact Or.inl ⟨_, rfl⟩
  next amt hamt =>
  split
  next e heq => exact Or.inl ⟨e, rfl⟩
  next hpos =>
  split
  next e heq =>
    refine Or.inl ⟨e, ?_⟩
    rcases hacc : alookup r.client_id s.accounts with _ | a
    · exfalso
      simp [getOrCreate, hacc, check_locked, ClientAccount.init] at heq
    · simp [getOrCreate, hacc] at heq ⊢
  next hlock =>
    refine Or.inr ⟨amt, hamt, ?_, ?_, ?_, rfl⟩
    · by_contra hneg
      simp [check_positive, lt_of_not_le hneg] at hpos
    · by_contra hdup2
      simp [check_duplicate, Option.isSome_iff_exists] at hdup
      rcases Option.ne_none_iff_exists.mp hdup2 with ⟨v, hv⟩
      exact hdup v hv.symm
    · by_contra hl
      simp [check_locked, eq_true_of_ne_false hl] at hlock

theorem check_positive_none (t : TxType) (i : TxId) (amt : Amount)
    (h : check_positive t i amt = none) : 0 ≤ amt := by
  by_contra hneg
  simp [check_positive, lt_of_not_le hneg] at h

theorem check_duplicate_none (i : TxId) (l : List (TxId × LedgerTx))
    (h : check_duplicate i l = none) : alookup i l = none := by
  cases ha : alookup i l
  · rfl
  · simp [check_duplicate, ha] at h

theorem check_locked_none (c : ClientId) (a : ClientAccount)
    (h : check_locked c a = none) : a.locked = false := by
  cases hb : a.locked
  · rfl
  · simp [check_locked, hb] at h

theorem check_mismatch_none (actual expected : ClientId)
    (h : check_client_id_mismatch actual expected = none) : expected = actual := by
  by_contra hne
  simp [check_client_id_mismatch, hne] at h

theorem check_sufficient_none (t : TxType) (i : TxId) (av amt : Amount)
    (h : check_sufficient_balance t i av amt = none) : amt ≤ av := by
  by_contra h2
  simp [check_sufficient_balance, lt_of_not_le h2] at h

theorem getOrCreate_of_some (s : State) (c : ClientId) (a : ClientAccount)
    (h : alookup c s.accounts = some a) : getOrCreate s c = (s, a) := by
  simp [getOrCreate, h]

/-- Outcome characterization of `Withdrawal::handle`: either it rejects with
the state untouched, or all checks pass and it debits the account and inserts
the ledger entry. -/
theorem withdrawal_shape (r : Transaction) (s : State) :
    (∃ e, Withdrawal.handle r s = (some e, s)) ∨
    (∃ amt a, r.amount = some amt ∧ 0 ≤ amt ∧ alookup r.tx_id s.transactions = none ∧
      alookup r.client_id s.accounts = some a ∧ a.locked = false ∧ amt ≤ a.available ∧
      Withdrawal.handle r s = (none, insTx (updAcct s r.client_id (withdrawSub amt))
        r.tx_id ⟨r, TxStatus.Valid⟩)) := by
  unfold Withdrawal.handle
  split
  next e heq => exact Or.inl ⟨e, rfl⟩
  next hdup =>
  split
  next => exact Or.inl ⟨_, rfl⟩
  next amt hamt =>
  split
  next e heq => exact Or.inl ⟨e, rfl⟩
  next hpos =>
  split
  next => exact Or.inl ⟨_, rfl⟩
  next a hacc =>
  split
  next e heq => exact Or.inl ⟨e, rfl⟩
  next hlock =>
  split
  next e heq => exact Or.inl ⟨e, rfl⟩
  next hbal =>
    exact Or.inr ⟨amt, a, hamt, check_positive_none _ _ _ hpos, check_duplicate_none _ _ hdup,
      hacc, check_locked_none _ _ hlock, check_sufficient_none _ _ _ _ hbal, rfl⟩

/-- Outcome characterization of `Dispute::handle`: either it rejects with the
state untouched, or all checks pass and it marks the deposit `Disputed` and
moves the amount from `available` to `held`. -/
theorem dispute_shape (r : Transaction) (s : State) :
    (∃ e, Dispute.handle r s = (some e, s)) ∨
    (∃ tx amt a, lookupDeposit s r.tx_id = some tx ∧ tx.status = TxStatus.Valid ∧
      tx.inner.client_id = r.client_id ∧ alookup tx.inner.client_id s.accounts = some a ∧
      a.locked = false ∧ tx.inner.amount = some amt ∧
      Dispute.handle r s = (none, updAcct (setTxStatus s r.tx_id TxStatus.Disputed)
        tx.inner.client_id (disputeMove amt))) := by
  unfold Dispute.handle
  split
  next => exact Or.inl ⟨_, rfl⟩
  next tx hlk =>
  split
  next => exact Or.inl ⟨_, rfl⟩
  next hst =>
  split
  next e heq => exact Or.inl ⟨e, rfl⟩
  next hmm =>
  split
  next => exact Or.inl ⟨_, rfl⟩
  next a hacc =>
  split
  next e heq => exact Or.inl ⟨e, rfl⟩
  next hlock =>
  split
  next => exact Or.inl ⟨_, rfl⟩
  next amt hamt =>
    exact Or.inr ⟨tx, amt, a, hlk, (not_ne_iff.mp hst).symm, check_mismatch_none _ _ hmm, hacc,
      check_locked_none _ _ hlock, hamt, rfl⟩

/-- Outcome characterization of `Resolve::handle`.  The middle branch is the
insufficient-held rejection, which happens after the status has already been
reset to `Valid`. -/
theorem resolve_shape (r : Transaction) (s : State) :
    (∃ e, Resolve.handle r s = (some e, s)) ∨
    (∃ tx amt a, lookupDeposit s r.tx_id = some tx ∧ tx.status = TxStatus.Disputed ∧
      tx.inner.client_id = r.client_id ∧ alookup tx.inner.client_id s.accounts = some a ∧
      a.locked = false ∧ tx.inner.amount = some amt ∧ a.held < amt ∧
      Resolve.handle r s = (some (.BalanceInsufficient a.held r.tx_type r.tx_id amt),
        setTxStatus s r.tx_id TxStatus.Valid)) ∨
    (∃ tx amt a, lookupDeposit s r.tx_id = some tx ∧ tx.status = TxStatus.Disputed ∧
      tx.inner.client_id = r.client_id ∧ alookup tx.inner.client_id s.accounts = some a ∧
      a.locked = false ∧ tx.inner.amount = some amt ∧ amt ≤ a.held ∧
      Resolve.handle r s = (none, updAcct (setTxStatus s r.tx_id TxStatus.Valid)
        tx.inner.client_id (resolveMove amt))) := by
  unfold Resolve.handle
  split
  next => exact Or.inl ⟨_, rfl⟩
  next tx hlk =>
  split
  next => exact Or.inl ⟨_, rfl⟩
  next hst =>
  split
  next e heq => exact Or.inl ⟨e, rfl⟩
  next hmm =>
  split
  next => exact Or.inl ⟨_, rfl⟩
  next a hacc =>
  split
  next e heq => exact Or.inl ⟨e, rfl⟩
  next hlock =>
  split
  next => exact Or.inl ⟨_, rfl⟩
  next amt hamt =>
  split
  next e heq =>
    simp only [check_sufficient_balance, ite_eq_iff] at heq
    rcases heq with ⟨hheld, he⟩ | ⟨_, he⟩
    · refine Or.inr (Or.inl ⟨tx, amt, a, hlk, (not_ne_iff.mp hst).symm,
        check_mismatch_none _ _ hmm, hacc, check_locked_none _ _ hlock, hamt, hheld, ?_⟩)
      rw [Option.some.injEq] at he
      rw [← he]
    · exact absurd he (by simp)
  next hbal =>
    exact Or.inr (Or.inr ⟨tx, amt, a, hlk, (not_ne_iff.mp hst).symm,
      check_mismatch_none _ _ hmm, hacc, check_locked_none _ _ hlock, hamt,
      check_sufficient_none _ _ _ _ hbal, rfl⟩)

/-- Outcome characterization of `Chargeback::handle`.  The middle branch is
the `BalanceInsufficient` rejection (negative available funds, or
insufficient held funds), which happens after the status has already been set
to the terminal `Chargeback`. -/
theorem chargeback_shape (r : Transaction) (s : State) :
    (∃ e, Chargeback.handle r s = (some e, s)) ∨
    (∃ tx amt a, lookupDeposit s r.tx_id = some tx ∧ tx.status = TxStatus.Disputed ∧
      tx.inner.client_id = r.client_id ∧ alookup tx.inner.client_id s.accounts = some a ∧
      a.locked = false ∧ tx.inner.amount = some amt ∧ (a.available < 0 ∨ a.held < amt) ∧
      Chargeback.handle r s =
        (some (.BalanceInsufficient (if a.available < 0 then a.available + amt else a.held)
          r.tx_type r.tx_id amt), setTxStatus s r.tx_id TxStatus.Chargeback)) ∨
    (∃ tx amt a, lookupDeposit s r.tx_id = some tx ∧ tx.status = TxStatus.Disputed ∧
      tx.inner.client_id = r.client_id ∧ alookup tx.inner.client_id s.accounts = some a ∧
      a.locked = false ∧ tx.inner.amount = some amt ∧ 0 ≤ a.available ∧ amt ≤ a.held ∧
      Chargeback.handle r s = (none, updAcct (setTxStatus s r.tx_id TxStatus.Chargeback)
        tx.inner.client_id (chargebackTake amt))) := by
  unfold Chargeback.handle
  split
  next => exact Or.inl ⟨_, rfl⟩
  next tx hlk =>
  split
  next => exact Or.inl ⟨_, rfl⟩
  next hst =>
  split
  next e heq => exact Or.inl ⟨e, rfl⟩
  next hmm =>
  split
  next => exact Or.inl ⟨_, rfl⟩
  next a hacc =>
  split
  next e heq => exact Or.inl ⟨e, rfl⟩
  next hlock =>
  split
  next => exact Or.inl ⟨_, rfl⟩
  next amt hamt =>
  split
  next hneg =>
    exact Or.inr (Or.inl ⟨tx, amt, a, hlk, (not_ne_iff.mp hst).symm,
      check_mismatch_none _ _ hmm, hacc, check_locked_none _ _ hlock, hamt, Or.inl hneg,
      by rw [if_pos hneg]⟩)
  next hpos =>
  split
  next e heq =>
    simp only [check_sufficient_balance, ite_eq_iff] at heq
    rcases heq with ⟨hheld, he⟩ | ⟨_, he⟩
    · refine Or.inr (Or.inl ⟨tx, amt, a, hlk, (not_ne_iff.mp hst).symm,
        check_mismatch_none _ _ hmm, hacc, check_locked_none _ _ hlock, hamt, Or.inr hheld, ?_⟩)
      rw [if_neg hpos]
      rw [Option.some.injEq] at he
      rw [← he]
    · exact absurd he (by simp)
  next hbal =>
    exact Or.inr (Or.inr ⟨tx, amt, a, hlk, (not_ne_iff.mp hst).symm,
      check_mismatch_none _ _ hmm, hacc, check_locked_none _ _ hlock, hamt,
      le_of_not_lt hpos, check_sufficient_none _ _ _ _ hbal, rfl⟩)

theorem deposit_err (r : Transaction) (s : State) (e : TransactionError)
    (h : (Deposit.handle r s).1 = some e) : (Deposit.handle r s).2 = s := by
  rcases deposit_shape r s with ⟨e', he⟩ | ⟨amt, _, _, _, _, hs⟩
  · rw [he]
  · rw [hs] at h
    simp at h

theorem withdrawal_err (r : Transaction) (s : State) (e : TransactionError)
    (h : (Withdrawal.handle r s).1 = some e) : (Withdrawal.handle r s).2 = s := by
  rcases withdrawal_shape r s with ⟨e', he⟩ | ⟨amt, a, _, _, _, _, _, _, hs⟩
  · rw [he]
  · rw [hs] at h
    simp at h

theorem dispute_err (r : Transaction) (s : State) (e : TransactionError)
    (h : (Dispute.handle r s).1 = some e) : (Dispute.handle r s).2 = s := by
  rcases dispute_shape r s with ⟨e', he⟩ | ⟨tx, amt, a, _, _, _, _, _, _, hs⟩
  · rw [he]
  · rw [hs] at h
    simp at h

theorem resolve_err (r : Transaction) (s : State) (e : TransactionError)
    (h : (Resolve.handle r s).1 = some e) :
    (Resolve.handle r s).2 = s ∨
    ((∃ av amt, e = TransactionError.BalanceInsufficient av r.tx_type r.tx_id amt) ∧
      (Resolve.handle r s).2 = setTxStatus s r.tx_id TxStatus.Valid) := by
  rcases resolve_shape r s with ⟨e', he⟩ | ⟨tx, amt, a, _, _, _, _, _, _, _, hs⟩ |
    ⟨tx, amt, a, _, _, _, _, _, _, _, hs⟩
  · rw [he]
    exact Or.inl rfl
  · rw [hs] at h ⊢
    rw [Option.some.injEq] at h
    exact Or.inr ⟨⟨a.held, amt, h.symm⟩, rfl⟩
  · rw [hs] at h
    simp at h

theorem chargeback_err (r : Transaction) (s : State) (e : TransactionError)
    (h : (Chargeback.handle r s).1 = some e) :
    (Chargeback.handle r s).2 = s ∨
    ((∃ av amt, e = TransactionError.BalanceInsufficient av r.tx_type r.tx_id amt) ∧
      (Chargeback.handle r s).2 = setTxStatus s r.tx_id TxStatus.Chargeback) := by
  rcases chargeback_shape r s with ⟨e', he⟩ | ⟨tx, amt, a, _, _, _, _, _, _, _, hs⟩ |
    ⟨tx, amt, a, _, _, _, _, _, _, _, _, hs⟩
  · rw [he]
    exact Or.inl rfl
  · rw [hs] at h ⊢
    rw [Option.some.injEq] at h
    exact Or.inr ⟨⟨_, amt, h.symm⟩, rfl⟩
  · rw [hs] at h
    simp at h

theorem run3_eq :
    (step recDsp1 (step recWd2 (step recDep1 State.empty).2).2).2 = stateAfterDispute := by
  norm_num [step, Deposit.handle, Withdrawal.handle, Dispute.handle, recDep1, recWd2, recDsp1,
    check_duplicate, check_positive, check_locked, check_sufficient_balance,
    check_client_id_mismatch, lookupDeposit, getOrCreate, setTxStatus, updAcct, insTx,
    alookup, ainsert, aupdate, State.empty, ClientAccount.init, depositAdd, withdrawSub,
    disputeMove, stateAfterDispute]

theorem cb_on_dispute_eq :
    step recCb1 stateAfterDispute =
      (some (TransactionError.BalanceInsufficient 50 TxType.Chargeback 1 100),
        stateAfterFailedCb) := by
  norm_num [step, Chargeback.handle, recCb1, recDep1, recWd2, stateAfterDispute,
    stateAfterFailedCb, check_locked, check_sufficient_balance, check_client_id_mismatch,
    lookupDeposit, setTxStatus, alookup, aupdate]

theorem res_on_failedCb_eq :
    step recRes1 stateAfterFailedCb =
      (some (TransactionError.IncorrectState TxType.Resolve TxStatus.Chargeback 1),
        stateAfterFailedCb) := by
  norm_num [step, Resolve.handle, recRes1, recDep1, recWd2, stateAfterFailedCb,
    lookupDeposit, alookup]
  intro hcontra
  exact absurd hcontra (by decide)

theorem res_on_dispute_eq :
    step recRes1 stateAfterDispute = (none, stateResolved) := by
  norm_num [step, Resolve.handle, recRes1, recDep1, recWd2, stateAfterDispute, stateResolved,
    check_locked, check_sufficient_balance, check_client_id_mismatch, lookupDeposit,
    setTxStatus, updAcct, resolveMove, alookup, aupdate]

/-- C1: the claim that a rejected record leaves the state exactly unchanged is
false: on the state reached by `deposit(1,1,100); withdrawal(1,2,50);
dispute(1)`, the chargeback of deposit 1 is rejected with
`BalanceInsufficient`, yet the resulting state differs from the starting
state (the deposit's lifecycle status was set to `Chargeback`). -/
theorem C1_counterexample :
    step recCb1 stateAfterDispute =
      (some (TransactionError.BalanceInsufficient 50 TxType.Chargeback 1 100),
        stateAfterFailedCb) ∧
    (step recCb1 stateAfterDispute).2 ≠ stateAfterDispute := by
  refine ⟨cb_on_dispute_eq, ?_⟩
  rw [cb_on_dispute_eq]
  simp [stateAfterFailedCb, stateAfterDispute]

/-- C1 (amended): if a handler rejects a record then every client account is
unchanged; for deposit, withdrawal and dispute records the whole state is
unchanged; for resolve and chargeback records the state is unchanged except
that a `BalanceInsufficient` rejection leaves the referenced deposit's
lifecycle status set to `Valid` (resolve) resp. `Chargeback` (chargeback). -/
theorem C1_amended (r : Transaction) (s : State) (e : TransactionError)
    (h : (step r s).1 = some e) :
    (step r s).2.accounts = s.accounts ∧
    ((r.tx_type = TxType.Deposit ∨ r.tx_type = TxType.Withdrawal ∨
        r.tx_type = TxType.Dispute) → (step r s).2 = s) ∧
    (r.tx_type = TxType.Resolve →
      (step r s).2 = s ∨
      ((∃ av amt, e = TransactionError.BalanceInsufficient av TxType.Resolve r.tx_id amt) ∧
        (step r s).2 = setTxStatus s r.tx_id TxStatus.Valid)) ∧
    (r.tx_type = TxType.Chargeback →
      (step r s).2 = s ∨
      ((∃ av amt, e = TransactionError.BalanceInsufficient av TxType.Chargeback r.tx_id amt) ∧
        (step r s).2 = setTxStatus s r.tx_id TxStatus.Chargeback)) := by
  cases hk : r.tx_type
  case Deposit =>
    have hd : step r s = Deposit.handle r s := by unfold step; rw [hk]
    rw [hd] at h ⊢
    rw [deposit_err r s e h]
    exact ⟨rfl, fun _ => rfl, fun hc => absurd hc (by decide), fun hc => absurd hc (by decide)⟩
  case Withdrawal =>
    have hd : step r s = Withdrawal.handle r s := by unfold step; rw [hk]
    rw [hd] at h ⊢
    rw [withdrawal_err r s e h]
    exact ⟨rfl, fun _ => rfl, fun hc => absurd hc (by decide), fun hc => absurd hc (by decide)⟩
  case Dispute =>
    have hd : step r s = Dispute.handle r s := by unfold step; rw [hk]
    rw [hd] at h ⊢
    rw [dispute_err r s e h]
    exact ⟨rfl, fun _ => rfl, fun hc => absurd hc (by decide), fun hc => absurd hc (by decide)⟩
  case Resolve =>
    have hd : step r s = Resolve.handle r s := by unfold step; rw [hk]
    rw [hd] at h ⊢
    rcases resolve_err r s e h with h2 | ⟨⟨av, amt, he⟩, h2⟩
    · rw [h2]
      exact ⟨rfl, fun _ => rfl, fun _ => Or.inl rfl, fun hc => absurd hc (by decide)⟩
    · rw [hk] at he
      rw [h2]
      exact ⟨setTxStatus_accounts s r.tx_id TxStatus.Valid,
        fun hc => absurd hc (by decide),
        fun _ => Or.inr ⟨⟨av, amt, he⟩, rfl⟩, fun hc => absurd hc (by decide)⟩
  case Chargeback =>
    have hd : step r s = Chargeback.handle r s := by unfold step; rw [hk]
    rw [hd] at h ⊢
    rcases chargeback_err r s e h with h2 | ⟨⟨av, amt, he⟩, h2⟩
    · rw [h2]
      exact ⟨rfl, fun _ => rfl, fun hc => absurd hc (by decide), fun _ => Or.inl rfl⟩
    · rw [hk] at he
      rw [h2]
      exact ⟨setTxStatus_accounts s r.tx_id TxStatus.Chargeback,
        fun hc => absurd hc (by decide),
        fun hc => absurd hc (by decide), fun _ => Or.inr ⟨⟨av, amt, he⟩, rfl⟩⟩

/-- Witness for C1 (amended), at the failed chargeback of the spec scenario. -/
theorem C1_amended_witness :
    (step recCb1 stateAfterDispute).1 =
      some (TransactionError.BalanceInsufficient 50 TxType.Chargeback 1 100) ∧
    ((step recCb1 stateAfterDispute).2.accounts = stateAfterDispute.accounts ∧
      ((recCb1.tx_type = TxType.Deposit ∨ recCb1.tx_type = TxType.Withdrawal ∨
          recCb1.tx_type = TxType.Dispute) →
        (step recCb1 stateAfterDispute).2 = stateAfterDispute) ∧
      (recCb1.tx_type = TxType.Resolve →
        (step recCb1 stateAfterDispute).2 = stateAfterDispute ∨
        ((∃ av amt, TransactionError.BalanceInsufficient 50 TxType.Chargeback 1 100 =
            TransactionError.BalanceInsufficient av TxType.Resolve recCb1.tx_id amt) ∧
          (step recCb1 stateAfterDispute).2 =
            setTxStatus stateAfterDispute recCb1.tx_id TxStatus.Valid)) ∧
      (recCb1.tx_type = TxType.Chargeback →
        (step recCb1 stateAfterDispute).2 = stateAfterDispute ∨
        ((∃ av amt, TransactionError.BalanceInsufficient 50 TxType.Chargeback 1 100 =
            TransactionError.BalanceInsufficient av TxType.Chargeback recCb1.tx_id amt) ∧
          (step recCb1 stateAfterDispute).2 =
            setTxStatus stateAfterDispute recCb1.tx_id TxStatus.Chargeback))) := by
  have h : (step recCb1 stateAfterDispute).1 =
      some (TransactionError.BalanceInsufficient 50 TxType.Chargeback 1 100) := by
    rw [cb_on_dispute_eq]
  exact ⟨h, C1_amended recCb1 stateAfterDispute _ h⟩

/-- C3: the claim is false in its last part: after the chargeback of the spec
scenario fails with `BalanceInsufficient`, the state is not unchanged (the
deposit is now `Chargeback`), and a subsequent resolve on that
post-chargeback state fails with `IncorrectState` instead of succeeding. -/
theorem C3_counterexample :
    step recCb1 stateAfterDispute =
      (some (TransactionError.BalanceInsufficient 50 TxType.Chargeback 1 100),
        stateAfterFailedCb) ∧
    (step recCb1 stateAfterDispute).2 ≠ stateAfterDispute ∧
    (step recRes1 (step recCb1 stateAfterDispute).2).1 =
      some (TransactionError.IncorrectState TxType.Resolve TxStatus.Chargeback 1) := by
  refine ⟨cb_on_dispute_eq, ?_, ?_⟩
  · rw [cb_on_dispute_eq]
    simp [stateAfterFailedCb, stateAfterDispute]
  · rw [cb_on_dispute_eq]
    rw [res_on_failedCb_eq]

/-- C3 (amended): from the empty state, `deposit(1,1,100); withdrawal(1,2,50);
dispute(1)` yields `available=-50, held=100, total=50`; the subsequent
`chargeback(1)` fails with `BalanceInsufficient`, leaving every account
balance unchanged but setting the deposit's status to the terminal
`Chargeback`, after which `resolve(1)` fails with `IncorrectState`; a
`resolve(1)` applied instead to the pre-chargeback state succeeds, yielding
`available=50, held=0, total=50`. -/
theorem C3_amended :
    (step recDsp1 (step recWd2 (step recDep1 State.empty).2).2).2 = stateAfterDispute ∧
    alookup 1 stateAfterDispute.accounts = some ⟨1, -50, 100, 50, false⟩ ∧
    step recCb1 stateAfterDispute =
      (some (TransactionError.BalanceInsufficient 50 TxType.Chargeback 1 100),
        stateAfterFailedCb) ∧
    stateAfterFailedCb.accounts = stateAfterDispute.accounts ∧
    alookup 1 stateAfterFailedCb.transactions = some ⟨recDep1, TxStatus.Chargeback⟩ ∧
    (step recRes1 stateAfterFailedCb).1 =
      some (TransactionError.IncorrectState TxType.Resolve TxStatus.Chargeback 1) ∧
    step recRes1 stateAfterDispute = (none, stateResolved) ∧
    alookup 1 stateResolved.accounts = some ⟨1, 50, 0, 50, false⟩ := by
  refine ⟨run3_eq, ?_, cb_on_dispute_eq, rfl, ?_, ?_, res_on_dispute_eq, ?_⟩
  · simp [stateAfterDispute, alookup]
  · simp [stateAfterFailedCb, alookup]
  · rw [res_on_failedCb_eq]
  · simp [stateResolved, alookup]

theorem stateInv_updAcct (s : State) (c : ClientId) (f : ClientAccount → ClientAccount)
    (h : stateInv s)
    (hf : ∀ a, a.total = a.available + a.held → (f a).total = (f a).available + (f a).held) :
    stateInv (updAcct s c f) := by
  intro c' a' hla
  by_cases hc : c' = c
  · subst hc
    rw [show (updAcct s c' f).accounts = aupdate c' f s.accounts from rfl,
      alookup_aupdate_self] at hla
    rcases Option.map_eq_some'.mp hla with ⟨a0, ha0, hfa⟩
    rw [← hfa]
    exact hf a0 (h c' a0 ha0)
  · rw [show (updAcct s c f).accounts = aupdate c f s.accounts from rfl,
      alookup_aupdate_ne hc] at hla
    exact h c' a' hla

theorem stateInv_getOrCreate (s : State) (c : ClientId) (h : stateInv s) :
    stateInv (getOrCreate s c).1 := by
  unfold getOrCreate
  cases hacc : alookup c s.accounts
  · intro c' a' hla
    simp only at hla
    by_cases hc : c' = c
    · subst hc
      rw [alookup_ainsert_self] at hla
      rw [Option.some.injEq] at hla
      rw [← hla]
      simp [ClientAccount.init]
    · rw [alookup_ainsert_ne hc] at hla
      exact h c' a' hla
  · exact h

theorem stateInv_empty : stateInv State.empty := by
  intro c a h
  simp [State.empty, alookup] at h

/-- C2: `total == available + held` holds for every account after processing
any sequence of records from the empty state, and every single step — whether
accepted or rejected — preserves the invariant.  (Amounts are modelled as
exact rationals, matching the claim's rounding caveat.) -/
theorem C2_total_invariant :
    (∀ recs, stateInv (processAll recs State.empty)) ∧
    (∀ r s, stateInv s → stateInv (step r s).2) := by
  have hstep : ∀ r s, stateInv s → stateInv (step r s).2 := by
    intro r s h
    cases hk : r.tx_type
    case Deposit =>
      have hd : step r s = Deposit.handle r s := by unfold step; rw [hk]
      rw [hd]
      rcases deposit_shape r s with ⟨e, he⟩ | ⟨amt, _, _, _, _, hs⟩
      · rw [he]
        exact h
      · rw [hs]
        have h1 : stateInv (getOrCreate s r.client_id).1 := stateInv_getOrCreate s r.client_id h
        have h2 := stateInv_updAcct (getOrCreate s r.client_id).1 r.client_id (depositAdd amt) h1
          (by intro a ha; simp only [depositAdd]; rw [ha]; ring)
        exact h2
    case Withdrawal =>
      have hd : step r s = Withdrawal.handle r s := by unfold step; rw [hk]
      rw [hd]
      rcases withdrawal_shape r s with ⟨e, he⟩ | ⟨amt, a, _, _, _, _, _, _, hs⟩
      · rw [he]
        exact h
      · rw [hs]
        exact stateInv_updAcct s r.client_id (withdrawSub amt) h
          (by intro a0 ha; simp only [withdrawSub]; rw [ha]; ring)
    case Dispute =>
      have hd : step r s = Dispute.handle r s := by unfold step; rw [hk]
      rw [hd]
      rcases dispute_shape r s with ⟨e, he⟩ | ⟨tx, amt, a, _, _, _, _, _, _, hs⟩
      · rw [he]
        exact h
      · rw [hs]
        exact stateInv_updAcct _ tx.inner.client_id (disputeMove amt) h
          (by intro a0 ha; simp only [disputeMove]; rw [ha]; ring)
    case Resolve =>
      have hd : step r s = Resolve.handle r s := by unfold step; rw [hk]
      rw [hd]
      rcases resolve_shape r s with ⟨e, he⟩ | ⟨tx, amt, a, _, _, _, _, _, _, _, hs⟩ |
        ⟨tx, amt, a, _, _, _, _, _, _, _, hs⟩
      · rw [he]
        exact h
      · rw [hs]
        exact h
      · rw [hs]
        exact stateInv_updAcct _ tx.inner.client_id (resolveMove amt) h
          (by intro a0 ha; simp only [resolveMove]; rw [ha]; ring)
    case Chargeback =>
      have hd : step r s = Chargeback.handle r s := by unfold step; rw [hk]
      rw [hd]
      rcases chargeback_shape r s with ⟨e, he⟩ | ⟨tx, amt, a, _, _, _, _, _, _, _, hs⟩ |
        ⟨tx, amt, a, _, _, _, _, _, _, _, _, hs⟩
      · rw [he]
        exact h
      · rw [hs]
        exact h
      · rw [hs]
        exact stateInv_updAcct _ tx.inner.client_id (chargebackTake amt) h
          (by intro a0 ha; simp only [chargebackTake]; rw [ha]; ring)
  refine ⟨?_, hstep⟩
  intro recs
  have hgen : ∀ recs s, stateInv s → stateInv (processAll recs s) := by
    intro recs
    induction recs with
    | nil => exact fun s h => h
    | cons r rest ih =>
      intro s h
      exact ih _ (hstep r s h)
  exact hgen recs State.empty stateInv_empty

/-- Witness for C2, at a concrete deposit step from the empty state. -/
theorem C2_witness :
    stateInv State.empty ∧ stateInv (step recDep1 State.empty).2 :=
  ⟨stateInv_empty, C2_total_invariant.2 recDep1 State.empty stateInv_empty⟩

theorem lockedIn_iff (s : State) (c : ClientId) :
    lockedIn s c = true ↔ ∃ a, alookup c s.accounts = some a ∧ a.locked = true := by
  unfold lockedIn
  cases h : alookup c s.accounts <;> simp [h]

theorem lockedIn_updAcct (s : State) (c c' : ClientId) (f : ClientAccount → ClientAccount)
    (hf : ∀ a, a.locked = true → (f a).locked = true)
    (h : lockedIn s c = true) : lockedIn (updAcct s c' f) c = true := by
  rcases (lockedIn_iff s c).mp h with ⟨a, ha, hl⟩
  by_cases hc : c = c'
  · subst hc
    refine (lockedIn_iff _ c).mpr ⟨f a, ?_, hf a hl⟩
    rw [show (updAcct s c f).accounts = aupdate c f s.accounts from rfl,
      alookup_aupdate_self, ha]
    rfl
  · refine (lockedIn_iff _ c).mpr ⟨a, ?_, hl⟩
    rw [show (updAcct s c' f).accounts = aupdate c' f s.accounts from rfl,
      alookup_aupdate_ne hc]
    exact ha

theorem lockedIn_getOrCreate (s : State) (c c' : ClientId) (h : lockedIn s c = true) :
    lockedIn (getOrCreate s c').1 c = true := by
  unfold getOrCreate
  cases hacc : alookup c' s.accounts
  case none =>
    rcases (lockedIn_iff s c).mp h with ⟨a, ha, hl⟩
    by_cases hc : c = c'
    · subst hc
      rw [ha] at hacc
      exact absurd hacc (by simp)
    · refine (lockedIn_iff _ c).mpr ⟨a, ?_, hl⟩
      rw [show ({ s with accounts := ainsert c' (ClientAccount.init c') s.accounts } :
          State).accounts = ainsert c' (ClientAccount.init c') s.accounts from rfl,
        alookup_ainsert_ne hc]
      exact ha
  case some => exact h

/-- C4: any record whose client id points at a locked account is rejected with
some error and mutates nothing; and no step ever resets `locked` to `false`
for any client. -/
theorem C4_locked :
    (∀ s r, lockedIn s r.client_id = true → ∃ e, step r s = (some e, s)) ∧
    (∀ s r c, lockedIn s c = true → lockedIn (step r s).2 c = true) := by
  constructor
  · intro s r h
    rcases (lockedIn_iff s r.client_id).mp h with ⟨a, ha, hl⟩
    cases hk : r.tx_type
    case Deposit =>
      have hd : step r s = Deposit.handle r s := by unfold step; rw [hk]
      rw [hd]
      rcases deposit_shape r s with ⟨e, he⟩ | ⟨amt, _, _, _, hl0, _⟩
      · exact ⟨e, he⟩
      · rw [getOrCreate_of_some s r.client_id a ha] at hl0
        rw [hl] at hl0
        exact absurd hl0 (by simp)
    case Withdrawal =>
      have hd : step r s = Withdrawal.handle r s := by unfold step; rw [hk]
      rw [hd]
      rcases withdrawal_shape r s with ⟨e, he⟩ | ⟨amt, a0, _, _, _, hacc0, hl0, _, _⟩
      · exact ⟨e, he⟩
      · rw [ha] at hacc0
        rw [Option.some.injEq] at hacc0
        rw [← hacc0, hl] at hl0
        exact absurd hl0 (by simp)
    case Dispute =>
      have hd : step r s = Dispute.handle r s := by unfold step; rw [hk]
      rw [hd]
      rcases dispute_shape r s with ⟨e, he⟩ | ⟨tx, amt, a0, _, _, hclid, hacc0, hl0, _, _⟩
      · exact ⟨e, he⟩
      · rw [hclid, ha] at hacc0
        rw [Option.some.injEq] at hacc0
        rw [← hacc0, hl] at hl0
        exact absurd hl0 (by simp)
    case Resolve =>
      have hd : step r s = Resolve.handle r s := by unfold step; rw [hk]
      rw [hd]
      rcases resolve_shape r s with ⟨e, he⟩ | ⟨tx, amt, a0, _, _, hclid, hacc0, hl0, _, _, _⟩ |
        ⟨tx, amt, a0, _, _, hclid, hacc0, hl0, _, _, _⟩ <;>
        [exact ⟨e, he⟩;
         (rw [hclid, ha] at hacc0
          rw [Option.some.injEq] at hacc0
          rw [← hacc0, hl] at hl0
          exact absurd hl0 (by simp));
         (rw [hclid, ha] at hacc0
          rw [Option.some.injEq] at hacc0
          rw [← hacc0, hl] at hl0
          exact absurd hl0 (by simp))]
    case Chargeback =>
      have hd : step r s = Chargeback.handle r s := by unfold step; rw [hk]
      rw [hd]
      rcases chargeback_shape r s with ⟨e, he⟩ | ⟨tx, amt, a0, _, _, hclid, hacc0, hl0, _, _, _⟩ |
        ⟨tx, amt, a0, _, _, hclid, hacc0, hl0, _, _, _, _⟩ <;>
        [exact ⟨e, he⟩;
         (rw [hclid, ha] at hacc0
          rw [Option.some.injEq] at hacc0
          rw [← hacc0, hl] at hl0
          exact absurd hl0 (by simp));
         (rw [hclid, ha] at hacc0
          rw [Option.some.injEq] at hacc0
          rw [← hacc0, hl] at hl0
          exact absurd hl0 (by simp))]
  · intro s r c h
    cases hk : r.tx_type
    case Deposit =>
      have hd : step r s = Deposit.handle r s := by unfold step; rw [hk]
      rw [hd]
      rcases deposit_shape r s with ⟨e, he⟩ | ⟨amt, _, _, _, _, hs⟩
      · rw [he]
        exact h
      · rw [hs]
        exact lockedIn_updAcct _ c r.client_id (depositAdd amt) (fun a0 ha0 => ha0)
          (lockedIn_getOrCreate s c r.client_id h)
    case Withdrawal =>
      have hd : step r s = Withdrawal.handle r s := by unfold step; rw [hk]
      rw [hd]
      rcases withdrawal_shape r s with ⟨e, he⟩ | ⟨amt, a0, _, _, _, _, _, _, hs⟩
      · rw [he]
        exact h
      · rw [hs]
        exact lockedIn_updAcct s c r.client_id (withdrawSub amt) (fun a0 ha0 => ha0) h
    case Dispute =>
      have hd : step r s = Dispute.handle r s := by unfold step; rw [hk]
      rw [hd]
      rcases dispute_shape r s with ⟨e, he⟩ | ⟨tx, amt, a0, _, _, _, _, _, _, hs⟩
      · rw [he]
        exact h
      · rw [hs]
        exact lockedIn_updAcct _ c tx.inner.client_id (disputeMove amt) (fun a0 ha0 => ha0) h
    case Resolve =>
      have hd : step r s = Resolve.handle r s := by unfold step; rw [hk]
      rw [hd]
      rcases resolve_shape r s with ⟨e, he⟩ | ⟨tx, amt, a0, _, _, _, _, _, _, _, hs⟩ |
        ⟨tx, amt, a0, _, _, _, _, _, _, _, hs⟩
      · rw [he]
        exact h
      · rw [hs]
        exact h
      · rw [hs]
        exact lockedIn_updAcct _ c tx.inner.client_id (resolveMove amt) (fun a0 ha0 => ha0) h
    case Chargeback =>
      have hd : step r s = Chargeback.handle r s := by unfold step; rw [hk]
      rw [hd]
      rcases chargeback_shape r s with ⟨e, he⟩ | ⟨tx, amt, a0, _, _, _, _, _, _, _, hs⟩ |
        ⟨tx, amt, a0, _, _, _, _, _, _, _, _, hs⟩
      · rw [he]
        exact h
      · rw [hs]
        exact h
      · rw [hs]
        exact lockedIn_updAcct _ c tx.inner.client_id (chargebackTake amt)
          (fun a0 _ => rfl) h

/-- Witness for C4, at a deposit on a locked account. -/
theorem C4_witness :
    lockedIn sLocked recDepLocked.client_id = true ∧
    (∃ e, step recDepLocked sLocked = (some e, sLocked)) ∧
    lockedIn (step recDepLocked sLocked).2 1 = true := by
  have h : lockedIn sLocked recDepLocked.client_id = true := by
    simp [lockedIn, sLocked, recDepLocked, alookup]
  exact ⟨h, C4_locked.1 sLocked recDepLocked h, C4_locked.2 sLocked recDepLocked 1 h⟩

/-- C5: a dispute referencing a transaction id stored with kind `Withdrawal`
fails with exactly `NotFound` and leaves the state unchanged, just as a
dispute referencing an absent id does. -/
theorem C5_dispute_withdrawal (s : State) (r : Transaction) (txe : LedgerTx)
    (hr : r.tx_type = TxType.Dispute)
    (h : alookup r.tx_id s.transactions = some txe)
    (hw : txe.inner.tx_type = TxType.Withdrawal) :
    step r s = (some (TransactionError.NotFound TxType.Dispute r.tx_id), s) ∧
    (∀ s2, alookup r.tx_id s2.transactions = none →
      step r s2 = (some (TransactionError.NotFound TxType.Dispute r.tx_id), s2)) := by
  have hstep : ∀ s' : State, step r s' = Dispute.handle r s' := by
    intro s'
    unfold step
    rw [hr]
  constructor
  · have hld : lookupDeposit s r.tx_id = none := by
      simp [lookupDeposit, h, hw]
    rw [hstep]
    unfold Dispute.handle
    rw [hld, hr]
  · intro s2 h2
    have hld2 : lookupDeposit s2 r.tx_id = none := by
      simp [lookupDeposit, h2]
    rw [hstep]
    unfold Dispute.handle
    rw [hld2, hr]

/-- Witness for C5, disputing the stored withdrawal of the spec scenario. -/
theorem C5_witness :
    (recDspWd.tx_type = TxType.Dispute ∧
      alookup recDspWd.tx_id stateAfterDispute.transactions =
        some ⟨recWd2, TxStatus.Valid⟩ ∧
      (⟨recWd2, TxStatus.Valid⟩ : LedgerTx).inner.tx_type = TxType.Withdrawal) ∧
    step recDspWd stateAfterDispute =
      (some (TransactionError.NotFound TxType.Dispute recDspWd.tx_id), stateAfterDispute) := by
  have h1 : recDspWd.tx_type = TxType.Dispute := rfl
  have h2 : alookup recDspWd.tx_id stateAfterDispute.transactions =
      some ⟨recWd2, TxStatus.Valid⟩ := by
    simp [stateAfterDispute, recDspWd, alookup]
  have h3 : (⟨recWd2, TxStatus.Valid⟩ : LedgerTx).inner.tx_type = TxType.Withdrawal := rfl
  exact ⟨⟨h1, h2, h3⟩, (C5_dispute_withdrawal stateAfterDispute recDspWd _ h1 h2 h3).1⟩

/-- C6: when the chargeback's lookup, status, client-id and lock checks all
pass but `available < 0`, the chargeback is rejected with
`BalanceInsufficient` reporting `available + amount`, and the account table
(balances and locked flag included) is unchanged. -/
theorem C6_chargeback_arrears (s : State) (r : Transaction) (txe : LedgerTx)
    (acct : ClientAccount) (amt : Amount)
    (hr : r.tx_type = TxType.Chargeback)
    (hlk : alookup r.tx_id s.transactions = some txe)
    (hdep : txe.inner.tx_type = TxType.Deposit)
    (hst : txe.status = TxStatus.Disputed)
    (hcl : txe.inner.client_id = r.client_id)
    (hacc : alookup r.client_id s.accounts = some acct)
    (hlock : acct.locked = false)
    (hamt : txe.inner.amount = some amt)
    (hneg : acct.available < 0) :
    step r s = (some (TransactionError.BalanceInsufficient (acct.available + amt)
        TxType.Chargeback r.tx_id amt), setTxStatus s r.tx_id TxStatus.Chargeback) ∧
    (step r s).2.accounts = s.accounts := by
  have hld : lookupDeposit s r.tx_id = some txe := by
    simp [lookupDeposit, hlk, hdep]
  have hs : step r s = Chargeback.handle r s := by
    unfold step
    rw [hr]
  have h1 : step r s = (some (TransactionError.BalanceInsufficient (acct.available + amt)
      TxType.Chargeback r.tx_id amt), setTxStatus s r.tx_id TxStatus.Chargeback) := by
    rw [hs]
    simp [Chargeback.handle, hld, hst, hcl, check_client_id_mismatch, hacc, check_locked,
      hlock, hamt, hneg, hr]
  exact ⟨h1, by rw [h1]; exact setTxStatus_accounts s r.tx_id TxStatus.Chargeback⟩

/-- Witness for C6, at the failed chargeback of the spec scenario. -/
theorem C6_witness :
    (recCb1.tx_type = TxType.Chargeback ∧
      alookup recCb1.tx_id stateAfterDispute.transactions =
        some ⟨recDep1, TxStatus.Disputed⟩ ∧
      alookup recCb1.client_id stateAfterDispute.accounts =
        some ⟨1, -50, 100, 50, false⟩ ∧
      ((-50 : ℚ) < 0)) ∧
    step recCb1 stateAfterDispute =
      (some (TransactionError.BalanceInsufficient (-50 + 100)
        TxType.Chargeback recCb1.tx_id 100),
       setTxStatus stateAfterDispute recCb1.tx_id TxStatus.Chargeback) ∧
    (step recCb1 stateAfterDispute).2.accounts = stateAfterDispute.accounts := by
  have h2 : alookup recCb1.tx_id stateAfterDispute.transactions =
      some ⟨recDep1, TxStatus.Disputed⟩ := by
    simp [stateAfterDispute, recCb1, alookup]
  have h6 : alookup recCb1.client_id stateAfterDispute.accounts =
      some ⟨1, -50, 100, 50, false⟩ := by
    simp [stateAfterDispute, recCb1, alookup]
  have h9 : ((⟨1, -50, 100, 50, false⟩ : ClientAccount)).available < 0 := by norm_num
  exact ⟨⟨rfl, h2, h6, h9⟩,
    C6_chargeback_arrears stateAfterDispute recCb1 ⟨recDep1, TxStatus.Disputed⟩
      ⟨1, -50, 100, 50, false⟩ 100 rfl h2 rfl rfl rfl h6 rfl rfl h9⟩

theorem getOrCreate_transactions (s : State) (c : ClientId) :
    (getOrCreate s c).1.transactions = s.transactions := by
  unfold getOrCreate
  cases h : alookup c s.accounts <;> rfl

theorem insTx_transactions (s : State) (t : TxId) (v : LedgerTx) :
    (insTx s t v).transactions = ainsert t v s.transactions := rfl

theorem setTxStatus_transactions (s : State) (t : TxId) (st : TxStatus) :
    (setTxStatus s t st).transactions =
      aupdate t (fun t0 => { t0 with status := st }) s.transactions := rfl

theorem persist_aupdate_status (l : List (TxId × LedgerTx)) (t u : TxId) (st : TxStatus)
    (txe : LedgerTx) (h : alookup t l = some txe) :
    ∃ txe2, alookup t (aupdate u (fun t0 => { t0 with status := st }) l) = some txe2 ∧
      txe2.inner = txe.inner := by
  by_cases htu : t = u
  · subst htu
    rw [alookup_aupdate_self, h]
    exact ⟨_, rfl, rfl⟩
  · rw [alookup_aupdate_ne htu]
    exact ⟨txe, h, rfl⟩

theorem persist_ainsert_ne (l : List (TxId × LedgerTx)) (t u : TxId) (v txe : LedgerTx)
    (hne : t ≠ u) (h : alookup t l = some txe) :
    ∃ txe2, alookup t (ainsert u v l) = some txe2 ∧ txe2.inner = txe.inner := by
  rw [alookup_ainsert_ne hne]
  exact ⟨txe, h, rfl⟩

/-- C7: a deposit or withdrawal whose transaction id is already a key of the
transaction table is rejected with `DuplicateTransaction` and the state is
unchanged; and no step ever replaces a stored ledger transaction with a
different one — at most its lifecycle status changes. -/
theorem C7_unique_ids :
    (∀ s r, (r.tx_type = TxType.Deposit ∨ r.tx_type = TxType.Withdrawal) →
      (alookup r.tx_id s.transactions).isSome = true →
      step r s = (some (TransactionError.DuplicateTransaction r.tx_id), s)) ∧
    (∀ s r t txe, alookup t s.transactions = some txe →
      ∃ txe2, alookup t (step r s).2.transactions = some txe2 ∧ txe2.inner = txe.inner) := by
  constructor
  · intro s r hk hdup
    have hd : check_duplicate r.tx_id s.transactions =
        some (TransactionError.DuplicateTransaction r.tx_id) := by
      simp [check_duplicate, hdup]
    rcases hk with hk | hk
    · have hs : step r s = Deposit.handle r s := by unfold step; rw [hk]
      rw [hs]
      unfold Deposit.handle
      rw [hd]
    · have hs : step r s = Withdrawal.handle r s := by unfold step; rw [hk]
      rw [hs]
      unfold Withdrawal.handle
      rw [hd]
  · intro s r t txe h
    cases hk : r.tx_type
    case Deposit =>
      have hd : step r s = Deposit.handle r s := by unfold step; rw [hk]
      rw [hd]
      rcases deposit_shape r s with ⟨e, he⟩ | ⟨amt, _, _, hnone, _, hs⟩
      · rw [he]
        exact ⟨txe, h, rfl⟩
      · rw [hs]
        rw [show (insTx (updAcct (getOrCreate s r.client_id).1 r.client_id (depositAdd amt))
            r.tx_id ⟨r, TxStatus.Valid⟩).transactions =
          ainsert r.tx_id ⟨r, TxStatus.Valid⟩ s.transactions from by
          rw [insTx_transactions, updAcct_transactions, getOrCreate_transactions]]
        refine persist_ainsert_ne _ _ _ _ _ ?_ h
        intro hEq
        rw [← hEq] at hnone
        rw [h] at hnone
        exact absurd hnone (by simp)
    case Withdrawal =>
      have hd : step r s = Withdrawal.handle r s := by unfold step; rw [hk]
      rw [hd]
      rcases withdrawal_shape r s with ⟨e, he⟩ | ⟨amt, a, _, _, hnone, _, _, _, hs⟩
      · rw [he]
        exact ⟨txe, h, rfl⟩
      · rw [hs]
        rw [show (insTx (updAcct s r.client_id (withdrawSub amt))
            r.tx_id ⟨r, TxStatus.Valid⟩).transactions =
          ainsert r.tx_id ⟨r, TxStatus.Valid⟩ s.transactions from by
          rw [insTx_transactions, updAcct_transactions]]
        refine persist_ainsert_ne _ _ _ _ _ ?_ h
        intro hEq
        rw [← hEq] at hnone
        rw [h] at hnone
        exact absurd hnone (by simp)
    case Dispute =>
      have hd : step r s = Dispute.handle r s := by unfold step; rw [hk]
      rw [hd]
      rcases dispute_shape r s with ⟨e, he⟩ | ⟨tx, amt, a, _, _, _, _, _, _, hs⟩
      · rw [he]
        exact ⟨txe, h, rfl⟩
      · rw [hs]
        rw [show (updAcct (setTxStatus s r.tx_id TxStatus.Disputed) tx.inner.client_id
            (disputeMove amt)).transactions =
          aupdate r.tx_id (fun t0 => { t0 with status := TxStatus.Disputed }) s.transactions
          from by rw [updAcct_transactions, setTxStatus_transactions]]
        exact persist_aupdate_status _ _ _ _ _ h
    case Resolve =>
      have hd : step r s = Resolve.handle r s := by unfold step; rw [hk]
      rw [hd]
      rcases resolve_shape r s with ⟨e, he⟩ | ⟨tx, amt, a, _, _, _, _, _, _, _, hs⟩ |
        ⟨tx, amt, a, _, _, _, _, _, _, _, hs⟩
      · rw [he]
        exact ⟨txe, h, rfl⟩
      · rw [hs]
        exact persist_aupdate_status _ _ _ _ _ h
      · rw [hs]
        rw [show (updAcct (setTxStatus s r.tx_id TxStatus.Valid) tx.inner.client_id
            (resolveMove amt)).transactions =
          aupdate r.tx_id (fun t0 => { t0 with status := TxStatus.Valid }) s.transactions
          from by rw [updAcct_transactions, setTxStatus_transactions]]
        exact persist_aupdate_status _ _ _ _ _ h
    case Chargeback =>
      have hd : step r s = Chargeback.handle r s := by unfold step; rw [hk]
      rw [hd]
      rcases chargeback_shape r s with ⟨e, he⟩ | ⟨tx, amt, a, _, _, _, _, _, _, _, hs⟩ |
        ⟨tx, amt, a, _, _, _, _, _, _, _, _, hs⟩
      · rw [he]
        exact ⟨txe, h, rfl⟩
      · rw [hs]
        exact persist_aupdate_status _ _ _ _ _ h
      · rw [hs]
        rw [show (updAcct (setTxStatus s r.tx_id TxStatus.Chargeback) tx.inner.client_id
            (chargebackTake amt)).transactions =
          aupdate r.tx_id (fun t0 => { t0 with status := TxStatus.Chargeback }) s.transactions
          from by rw [updAcct_transactions, setTxStatus_transactions]]
        exact persist_aupdate_status _ _ _ _ _ h

/-- Witness for C7, re-depositing under the existing transaction id 1. -/
theorem C7_witness :
    (recDupDep.tx_type = TxType.Deposit ∨ recDupDep.tx_type = TxType.Withdrawal) ∧
    (alookup recDupDep.tx_id stateAfterDispute.transactions).isSome = true ∧
    step recDupDep stateAfterDispute =
      (some (TransactionError.DuplicateTransaction recDupDep.tx_id), stateAfterDispute) ∧
    (∃ txe2, alookup 1 (step recDupDep stateAfterDispute).2.transactions = some txe2 ∧
      txe2.inner = recDep1) := by
  have h1 : recDupDep.tx_type = TxType.Deposit ∨ recDupDep.tx_type = TxType.Withdrawal :=
    Or.inl rfl
  have h2 : (alookup recDupDep.tx_id stateAfterDispute.transactions).isSome = true := by
    simp [stateAfterDispute, recDupDep, alookup]
  have h3 : alookup 1 stateAfterDispute.transactions = some ⟨recDep1, TxStatus.Disputed⟩ := by
    simp [stateAfterDispute, alookup]
  exact ⟨h1, h2, C7_unique_ids.1 stateAfterDispute recDupDep h1 h2,
    C7_unique_ids.2 stateAfterDispute recDupDep 1 ⟨recDep1, TxStatus.Disputed⟩ h3⟩

/-- C8: the positivity check rejects with `MustBePositive` (carrying kind, id
and amount) exactly when the amount is strictly negative; an amount of
exactly 0 passes it, and a zero-amount deposit is accepted end to end. -/
theorem C8_positivity :
    (∀ t i amt, check_positive t i amt = none ↔ 0 ≤ amt) ∧
    (∀ t i amt, amt < 0 →
      check_positive t i amt = some (TransactionError.MustBePositive t i amt)) ∧
    (∀ t i, check_positive t i 0 = none) ∧
    (∀ c t, (Deposit.handle ⟨TxType.Deposit, c, t, some 0⟩ State.empty).1 = none) := by
  refine ⟨?_, ?_, ?_, ?_⟩
  · intro t i amt
    unfold check_positive
    by_cases h : amt < 0
    · simp [h, not_le.mpr h]
    · simp [h, not_lt.mp h]
  · intro t i amt h
    simp [check_positive, h]
  · intro t i
    simp [check_positive]
  · intro c t
    simp [Deposit.handle, check_duplicate, alookup, check_positive, getOrCreate,
      check_locked, ClientAccount.init, State.empty]

/-- Witness for C8, at a negative withdrawal amount. -/
theorem C8_witness :
    ((-1 : ℚ) < 0) ∧
    check_positive TxType.Withdrawal 5 (-1) =
      some (TransactionError.MustBePositive TxType.Withdrawal 5 (-1)) :=
  ⟨by norm_num, C8_positivity.2.1 TxType.Withdrawal 5 (-1) (by norm_num)⟩

theorem totalOf_eq_some (s : State) (c : ClientId) (a : ClientAccount)
    (h : alookup c s.accounts = some a) : totalOf s c = a.total := by
  unfold totalOf
  rw [h]

theorem totalOf_eq_none (s : State) (c : ClientId)
    (h : alookup c s.accounts = none) : totalOf s c = 0 := by
  unfold totalOf
  rw [h]

theorem totalOf_updAcct_self (s : State) (c : ClientId) (f : ClientAccount → ClientAccount)
    (a : ClientAccount) (h : alookup c s.accounts = some a) :
    totalOf (updAcct s c f) c = (f a).total := by
  unfold totalOf
  rw [show (updAcct s c f).accounts = aupdate c f s.accounts from rfl,
    alookup_aupdate_self, h]
  rfl

theorem totalOf_updAcct_ne (s : State) (c c' : ClientId) (f : ClientAccount → ClientAccount)
    (h : c' ≠ c) : totalOf (updAcct s c f) c' = totalOf s c' := by
  unfold totalOf
  rw [show (updAcct s c f).accounts = aupdate c f s.accounts from rfl,
    alookup_aupdate_ne h]

theorem getOrCreate_accounts_none (s : State) (c : ClientId)
    (h : alookup c s.accounts = none) :
    (getOrCreate s c).1.accounts = ainsert c (ClientAccount.init c) s.accounts := by
  simp [getOrCreate, h]

theorem totalOf_getOrCreate (s : State) (c c' : ClientId) :
    totalOf (getOrCreate s c).1 c' = totalOf s c' := by
  unfold getOrCreate
  cases hacc : alookup c s.accounts
  case none =>
    unfold totalOf
    simp only
    by_cases hc : c' = c
    · subst hc
      rw [alookup_ainsert_self, hacc]
      simp [ClientAccount.init]
    · rw [alookup_ainsert_ne hc]
  case some => rfl

theorem deposit_succ_totalOf (r : Transaction) (s : State)
    (hk : r.tx_type = TxType.Deposit) (hok : (step r s).1 = none) (c : ClientId) :
    totalOf (step r s).2 c =
      totalOf s c + (if r.client_id = c then r.amount.getD 0 else 0) := by
  have hd : step r s = Deposit.handle r s := by unfold step; rw [hk]
  rw [hd] at hok ⊢
  rcases deposit_shape r s with ⟨e, he⟩ | ⟨amt, hamt, _, _, _, hs⟩
  · rw [he] at hok
    exact absurd hok (by simp)
  · rw [hs, hamt]
    simp only [Option.getD_some]
    by_cases hc : r.client_id = c
    · subst hc
      rw [if_pos rfl]
      rw [show totalOf (insTx (updAcct (getOrCreate s r.client_id).1 r.client_id
          (depositAdd amt)) r.tx_id ⟨r, TxStatus.Valid⟩) r.client_id =
        totalOf (updAcct (getOrCreate s r.client_id).1 r.client_id (depositAdd amt))
          r.client_id from rfl]
      cases hacc : alookup r.client_id s.accounts with
      | none =>
        have h1 : alookup r.client_id (getOrCreate s r.client_id).1.accounts =
            some (ClientAccount.init r.client_id) := by
          rw [getOrCreate_accounts_none s r.client_id hacc, alookup_ainsert_self]
        rw [totalOf_updAcct_self _ _ _ _ h1, totalOf_eq_none s r.client_id hacc]
        simp [depositAdd, ClientAccount.init]
      | some a =>
        rw [show (getOrCreate s r.client_id).1 = s from by
          rw [getOrCreate_of_some s r.client_id a hacc]]
        rw [totalOf_updAcct_self s r.client_id _ a hacc, totalOf_eq_some s r.client_id a hacc]
        simp [depositAdd]
    · rw [if_neg hc]
      rw [show totalOf (insTx (updAcct (getOrCreate s r.client_id).1 r.client_id
          (depositAdd amt)) r.tx_id ⟨r, TxStatus.Valid⟩) c =
        totalOf (updAcct (getOrCreate s r.client_id).1 r.client_id (depositAdd amt)) c
        from rfl]
      rw [totalOf_updAcct_ne _ _ _ _ (fun hEq => hc hEq.symm), totalOf_getOrCreate]
      simp

theorem withdrawal_succ_totalOf (r : Transaction) (s : State)
    (hk : r.tx_type = TxType.Withdrawal) (hok : (step r s).1 = none) (c : ClientId) :
    totalOf (step r s).2 c =
      totalOf s c - (if r.client_id = c then r.amount.getD 0 else 0) := by
  have hd : step r s = Withdrawal.handle r s := by unfold step; rw [hk]
  rw [hd] at hok ⊢
  rcases withdrawal_shape r s with ⟨e, he⟩ | ⟨amt, a, hamt, _, _, hacc, _, _, hs⟩
  · rw [he] at hok
    exact absurd hok (by simp)
  · rw [hs, hamt]
    simp only [Option.getD_some]
    by_cases hc : r.client_id = c
    · subst hc
      rw [if_pos rfl]
      rw [show totalOf (insTx (updAcct s r.client_id (withdrawSub amt))
          r.tx_id ⟨r, TxStatus.Valid⟩) r.client_id =
        totalOf (updAcct s r.client_id (withdrawSub amt)) r.client_id from rfl]
      rw [totalOf_updAcct_self s r.client_id _ a hacc, totalOf_eq_some s r.client_id a hacc]
      simp [withdrawSub]
    · rw [if_neg hc]
      rw [show totalOf (insTx (updAcct s r.client_id (withdrawSub amt))
          r.tx_id ⟨r, TxStatus.Valid⟩) c =
        totalOf (updAcct s r.client_id (withdrawSub amt)) c from rfl]
      rw [totalOf_updAcct_ne _ _ _ _ (fun hEq => hc hEq.symm)]
      simp

theorem totals_general (recs : List Transaction) :
    ∀ s, (∀ r ∈ recs, r.tx_type = TxType.Deposit ∨ r.tx_type = TxType.Withdrawal) →
    allAccepted recs s = true → ∀ c,
    totalOf (processAll recs s) c =
      totalOf s c + depositSum recs c - withdrawalSum recs c := by
  induction recs with
  | nil =>
    intro s _ _ c
    simp [processAll, depositSum, withdrawalSum]
  | cons r rest ih =>
    intro s hkinds hacc c
    rw [show allAccepted (r :: rest) s =
      ((step r s).1.isNone && allAccepted rest (step r s).2) from rfl] at hacc
    rw [Bool.and_eq_true] at hacc
    obtain ⟨hok, hrest⟩ := hacc
    have hok' : (step r s).1 = none := Option.isNone_iff_eq_none.mp hok
    rw [show processAll (r :: rest) s = processAll rest (step r s).2 from rfl]
    rw [ih (step r s).2 (fun r' hr' => hkinds r' (List.mem_cons_of_mem r hr')) hrest c]
    rw [show depositSum (r :: rest) c = (if r.tx_type = TxType.Deposit ∧ r.client_id = c
        then r.amount.getD 0 + depositSum rest c else depositSum rest c) from rfl]
    rw [show withdrawalSum (r :: rest) c = (if r.tx_type = TxType.Withdrawal ∧ r.client_id = c
        then r.amount.getD 0 + withdrawalSum rest c else withdrawalSum rest c) from rfl]
    rcases hkinds r (List.mem_cons_self r rest) with hk | hk
    · rw [deposit_succ_totalOf r s hk hok' c]
      by_cases hc : r.client_id = c
      · rw [if_pos hc, if_pos ⟨hk, hc⟩, if_neg (by
          intro hand
          rw [hk] at hand
          exact absurd hand.1 (by decide))]
        ring
      · rw [if_neg hc, if_neg (fun hand => hc hand.2), if_neg (fun hand => hc hand.2)]
        ring
    · rw [withdrawal_succ_totalOf r s hk hok' c]
      by_cases hc : r.client_id = c
      · rw [if_pos hc, if_neg (by
          intro hand
          rw [hk] at hand
          exact absurd hand.1 (by decide)), if_pos ⟨hk, hc⟩]
        ring
      · rw [if_neg hc, if_neg (fun hand => hc hand.2), if_neg (fun hand => hc hand.2)]
        ring

/-- C9: for a sequence of deposit/withdrawal records in which every record is
accepted, each client's final `total` equals that client's deposited sum minus
withdrawn sum. -/
theorem C9_roundtrip (recs : List Transaction)
    (hkinds : ∀ r ∈ recs, r.tx_type = TxType.Deposit ∨ r.tx_type = TxType.Withdrawal)
    (hacc : allAccepted recs State.empty = true) (c : ClientId) :
    totalOf (processAll recs State.empty) c = depositSum recs c - withdrawalSum recs c := by
  rw [totals_general recs State.empty hkinds hacc c]
  rw [show totalOf State.empty c = 0 from rfl]
  ring

/-- Witness for C9, at the two-record sequence of the spec scenario. -/
theorem C9_witness :
    (∀ r ∈ [recDep1, recWd2], r.tx_type = TxType.Deposit ∨
      r.tx_type = TxType.Withdrawal) ∧
    allAccepted [recDep1, recWd2] State.empty = true ∧
    totalOf (processAll [recDep1, recWd2] State.empty) 1 =
      depositSum [recDep1, recWd2] 1 - withdrawalSum [recDep1, recWd2] 1 := by
  have h1 : ∀ r ∈ [recDep1, recWd2], r.tx_type = TxType.Deposit ∨
      r.tx_type = TxType.Withdrawal := by
    intro r hr
    rcases List.mem_cons.mp hr with rfl | hr2
    · exact Or.inl rfl
    rcases List.mem_cons.mp hr2 with rfl | hr3
    · exact Or.inr rfl
    · exact absurd hr3 (List.not_mem_nil r)
  have h2 : allAccepted [recDep1, recWd2] State.empty = true := by
    norm_num [allAccepted, step, Deposit.handle, Withdrawal.handle, recDep1, recWd2,
      check_duplicate, check_positive, check_locked, check_sufficient_balance, getOrCreate,
      updAcct, insTx, alookup, ainsert, aupdate, State.empty, ClientAccount.init,
      depositAdd, withdrawSub]
  exact ⟨h1, h2, C9_roundtrip [recDep1, recWd2] h1 h2 1⟩

theorem setTxStatus_lookup_self (s : State) (t : TxId) (st : TxStatus) (txe : LedgerTx)
    (h : alookup t s.transactions = some txe) :
    alookup t (setTxStatus s t st).transactions = some ⟨txe.inner, st⟩ := by
  rw [setTxStatus_transactions, alookup_aupdate_self, h]
  rfl

/-- C10: resolve and chargeback update the referenced deposit's lifecycle
status before their balance checks.  A resolve that passes all earlier checks
but fails on `held < amount` leaves the deposit `Valid` (so it can be disputed
again); a chargeback that passes the earlier checks but fails with
`BalanceInsufficient` leaves the deposit at the terminal `Chargeback`, after
which any dispute, resolve, or chargeback of that id fails with
`IncorrectState` and leaves the state (including the held funds) unchanged. -/
theorem C10_status_before_balance :
    (∀ s r txe acct amt, r.tx_type = TxType.Resolve →
      alookup r.tx_id s.transactions = some txe →
      txe.inner.tx_type = TxType.Deposit →
      txe.status = TxStatus.Disputed →
      txe.inner.client_id = r.client_id →
      alookup r.client_id s.accounts = some acct →
      acct.locked = false →
      txe.inner.amount = some amt →
      acct.held < amt →
      step r s = (some (TransactionError.BalanceInsufficient acct.held TxType.Resolve
          r.tx_id amt), setTxStatus s r.tx_id TxStatus.Valid) ∧
      alookup r.tx_id (step r s).2.transactions = some ⟨txe.inner, TxStatus.Valid⟩) ∧
    (∀ s r txe acct amt, r.tx_type = TxType.Chargeback →
      alookup r.tx_id s.transactions = some txe →
      txe.inner.tx_type = TxType.Deposit →
      txe.status = TxStatus.Disputed →
      txe.inner.client_id = r.client_id →
      alookup r.client_id s.accounts = some acct →
      acct.locked = false →
      txe.inner.amount = some amt →
      (acct.available < 0 ∨ acct.held < amt) →
      step r s = (some (TransactionError.BalanceInsufficient
          (if acct.available < 0 then acct.available + amt else acct.held)
          TxType.Chargeback r.tx_id amt), setTxStatus s r.tx_id TxStatus.Chargeback) ∧
      alookup r.tx_id (step r s).2.transactions = some ⟨txe.inner, TxStatus.Chargeback⟩) ∧
    (∀ s r txe, alookup r.tx_id s.transactions = some txe →
      txe.inner.tx_type = TxType.Deposit →
      txe.status = TxStatus.Chargeback →
      (r.tx_type = TxType.Dispute ∨ r.tx_type = TxType.Resolve ∨
        r.tx_type = TxType.Chargeback) →
      step r s = (some (TransactionError.IncorrectState r.tx_type TxStatus.Chargeback
          txe.inner.tx_id), s)) := by
  refine ⟨?_, ?_, ?_⟩
  · intro s r txe acct amt hr hlk hdep hst hcl hacc hlock hamt hheld
    have hld : lookupDeposit s r.tx_id = some txe := by
      simp [lookupDeposit, hlk, hdep]
    have hs : step r s = Resolve.handle r s := by unfold step; rw [hr]
    have h1 : step r s = (some (TransactionError.BalanceInsufficient acct.held
        TxType.Resolve r.tx_id amt), setTxStatus s r.tx_id TxStatus.Valid) := by
      rw [hs]
      simp [Resolve.handle, hld, hst, hcl, check_client_id_mismatch, hacc, check_locked,
        hlock, hamt, check_sufficient_balance, hheld, hr]
    refine ⟨h1, ?_⟩
    rw [h1]
    exact setTxStatus_lookup_self s r.tx_id TxStatus.Valid txe hlk
  · intro s r txe acct amt hr hlk hdep hst hcl hacc hlock hamt hdisj
    have hld : lookupDeposit s r.tx_id = some txe := by
      simp [lookupDeposit, hlk, hdep]
    have hs : step r s = Chargeback.handle r s := by unfold step; rw [hr]
    by_cases hneg : acct.available < 0
    · have h1 : step r s = (some (TransactionError.BalanceInsufficient
          (acct.available + amt) TxType.Chargeback r.tx_id amt),
          setTxStatus s r.tx_id TxStatus.Chargeback) := by
        rw [hs]
        simp [Chargeback.handle, hld, hst, hcl, check_client_id_mismatch, hacc,
          check_locked, hlock, hamt, hneg, hr]
      refine ⟨?_, ?_⟩
      · rw [if_pos hneg]
        exact h1
      · rw [h1]
        exact setTxStatus_lookup_self s r.tx_id TxStatus.Chargeback txe hlk
    · have hheld : acct.held < amt := by
        rcases hdisj with h | h
        · exact absurd h hneg
        · exact h
      have h1 : step r s = (some (TransactionError.BalanceInsufficient acct.held
          TxType.Chargeback r.tx_id amt), setTxStatus s r.tx_id TxStatus.Chargeback) := by
        rw [hs]
        simp [Chargeback.handle, hld, hst, hcl, check_client_id_mismatch, hacc,
          check_locked, hlock, hamt, hneg, check_sufficient_balance, hheld, hr]
      refine ⟨?_, ?_⟩
      · rw [if_neg hneg]
        exact h1
      · rw [h1]
        exact setTxStatus_lookup_self s r.tx_id TxStatus.Chargeback txe hlk
  · intro s r txe hlk hdep hst hkind
    have hld : lookupDeposit s r.tx_id = some txe := by
      simp [lookupDeposit, hlk, hdep]
    rcases hkind with hr | hr | hr
    · have hs : step r s = Dispute.handle r s := by unfold step; rw [hr]
      rw [hs]
      simp [Dispute.handle, hld, hst]
    · have hs : step r s = Resolve.handle r s := by unfold step; rw [hr]
      rw [hs]
      simp [Resolve.handle, hld, hst]
    · have hs : step r s = Chargeback.handle r s := by unfold step; rw [hr]
      rw [hs]
      simp [Chargeback.handle, hld, hst]

/-- Witness for C10, at a resolve failing its held-balance check. -/
theorem C10_witness :
    ((3 : ℚ) < 10) ∧
    (step recResLow sHeldLow =
      (some (TransactionError.BalanceInsufficient 3 TxType.Resolve 1 10),
        setTxStatus sHeldLow 1 TxStatus.Valid) ∧
     alookup 1 (step recResLow sHeldLow).2.transactions =
       some ⟨⟨TxType.Deposit, 1, 1, some 10⟩, TxStatus.Valid⟩) := by
  have hlk : alookup recResLow.tx_id sHeldLow.transactions =
      some ⟨⟨TxType.Deposit, 1, 1, some 10⟩, TxStatus.Disputed⟩ := by
    simp [sHeldLow, recResLow, alookup]
  have hacc : alookup recResLow.client_id sHeldLow.accounts =
      some ⟨1, 5, 3, 8, false⟩ := by
    simp [sHeldLow, recResLow, alookup]
  have hheld : ((⟨1, 5, 3, 8, false⟩ : ClientAccount)).held < 10 := by norm_num
  exact ⟨by norm_num,
    C10_status_before_balance.1 sHeldLow recResLow
      ⟨⟨TxType.Deposit, 1, 1, some 10⟩, TxStatus.Disputed⟩ ⟨1, 5, 3, 8, false⟩ 10
      rfl hlk rfl rfl rfl hacc rfl rfl hheld⟩

end TxnApp
